import Mathlib

/-!
# A verification development for the `UI` module (`frontend/static/ui.js`)

The module is a minimal reactive UI runtime: a spec-tree data model, a differ
(`diffOne` / `diffList`), a patcher (`create` / `modify` / `apply`) and a
message-driven scheduling loop (`init` / `draw` / `updateState`).

This file shallowly embeds that code in Lean:
* JS objects used as string-keyed records become association lists with
  unique keys (`objGet` / `objSet` / `objRemove` model property read, property
  assignment and attribute removal; a `for (const k in obj)` loop becomes a
  fold over the list of pairs).
* JS exceptions (`throw`, `TypeError` on `undefined`) become `Except String`.
* DOM nodes become `LiveNode`; event listeners registered with
  `addEventListener` are fresh closures `() => enqueue(msg)` and are modelled
  with an allocation counter giving each closure its identity (`JSFun`);
  `removeEventListener` compares by reference identity.
-/

namespace UI

/-- An attribute value in a spec: either an ordinary string attribute value or
an opaque message value used as an event handler payload. -/
inductive AValue where
  | str (s : String)
  | handler (n : Nat)
deriving DecidableEq, Repr

/-- The spec-tree node type:
`{tag, attributes, children} | {textContent} | {empty: true}`. -/
inductive Spec where
  | element (tag : String) (attributes : List (String × AValue)) (children : List Spec)
  | text (textContent : String)
  | empty
deriving Repr

mutual
/-- The edit-script type: `ElementDiff = Replace Element | Remove | Create Element | Modify ContentsDiff | Noop`. -/
inductive ElementDiff where
  | replace (spec : Spec)
  | remove
  | create (spec : Spec)
  | modify (c : ContentsDiff)
  | noop

/-- The contents-diff record: `ContentsDiff = { removeAttr, setAttr, removeListeners, addListeners, children }`.
`removeListeners` values are `Option AValue` because the code stores
`l.attributes[attr]`, which may be `undefined`. -/
inductive ContentsDiff where
  | mk (removeAttr : List String) (setAttr : List (String × AValue))
      (removeListeners : List (String × Option AValue))
      (addListeners : List (String × AValue))
      (children : List ElementDiff)
end

def ContentsDiff.removeAttr : ContentsDiff → List String
  | .mk ra _ _ _ _ => ra

def ContentsDiff.setAttr : ContentsDiff → List (String × AValue)
  | .mk _ sa _ _ _ => sa

def ContentsDiff.removeListeners : ContentsDiff → List (String × Option AValue)
  | .mk _ _ rl _ _ => rl

def ContentsDiff.addListeners : ContentsDiff → List (String × AValue)
  | .mk _ _ _ al _ => al

def ContentsDiff.children : ContentsDiff → List ElementDiff
  | .mk _ _ _ _ ch => ch

/-- The test `e.noop` is truthy exactly on the `{noop: true}` variant. -/
def ElementDiff.isNoop : ElementDiff → Bool
  | .noop => true
  | _ => false

/-- The test `e.empty` is truthy exactly on the `{empty: true}` variant. -/
def Spec.isEmptyNode : Spec → Bool
  | .empty => true
  | _ => false

/-- Field read `l.textContent` (`undefined` on elements and empty nodes). -/
def Spec.textContent? : Spec → Option String
  | .text s => some s
  | _ => none

/-- Field read `l.tag` (`undefined` on text and empty nodes). -/
def Spec.tag? : Spec → Option String
  | .element t _ _ => some t
  | _ => none

/-- Field read `l.attributes`; iterating `for (const attr in l.attributes)` over
`undefined` performs no iterations, so text/empty nodes read as `[]`. -/
def Spec.attrs : Spec → List (String × AValue)
  | .element _ a _ => a
  | _ => []

/-- Field read `l.children` (`undefined` on text and empty nodes; `Array.from(undefined)`
throws a `TypeError`). -/
def Spec.children? : Spec → Option (List Spec)
  | .element _ _ cs => some cs
  | _ => none

/-- The helper `eventName(str)`: `str.indexOf("on") == 0` tests the two-character prefix;
`str.slice(2)` drops it and `.toLowerCase()` lowercases the remainder. -/
def eventName (str : String) : Option String :=
  match str.data with
  | 'o' :: 'n' :: rest => some (String.mk (rest.map Char.toLower))
  | _ => none

/-- Property read `o[k]` on a JS object: `none` models `undefined`. -/
def objGet {α : Type} (o : List (String × α)) (k : String) : Option α :=
  (o.find? (fun p => p.1 == k)).map Prod.snd

/-- Property assignment `o[k] = v` on a JS object: overwrites in place if the
key exists (keeping its position, as JS insertion order does), else appends. -/
def objSet {α : Type} (o : List (String × α)) (k : String) (v : α) : List (String × α) :=
  if o.any (fun p => p.1 == k) then
    o.map (fun p => if p.1 == k then (k, v) else p)
  else
    o ++ [(k, v)]

/-- Key deletion, as performed by `el.removeAttribute(k)`. -/
def objRemove {α : Type} (o : List (String × α)) (k : String) : List (String × α) :=
  o.filter (fun p => !(p.1 == k))

/-- The filter `removeEmpty(els) = Array.from(els).filter(e => !e.empty)`. -/
def removeEmpty (els : List Spec) : List Spec :=
  els.filter (fun e => !e.isEmptyNode)

theorem sizeOf_filter_le (p : Spec → Bool) (xs : List Spec) :
    sizeOf (xs.filter p) ≤ sizeOf xs := by
  induction xs with
  | nil => simp
  | cons x xs ih =>
    rw [List.filter_cons]
    by_cases h : p x
    · simp [h]; omega
    · simp [h]; omega

/-- A `do`-reduction for the `Except` monad on a success value. -/
@[simp] theorem ok_bind {ε α β : Type} (a : α) (f : α → Except ε β) :
    (Except.ok a : Except ε α) >>= f = f a := rfl

/-- A `do`-reduction for the `Except` monad on a propagating error. -/
@[simp] theorem error_bind {ε α β : Type} (e : ε) (f : α → Except ε β) :
    (Except.error e : Except ε α) >>= f = Except.error e := rfl

theorem sizeOf_children_lt {l : Spec} {cs : List Spec} (h : Spec.children? l = some cs) :
    sizeOf cs < sizeOf l := by
  cases l <;> simp [Spec.children?] at h
  subst h; simp; try omega

/-- Body of the first attribute loop of `diffOne`:
`for (const attr in l.attributes) if (r.attributes[attr] === undefined) { ... }` —
an absent key is recorded in `removeListeners` (when event-named) or
`removeAttr` (otherwise). -/
def removedAttrStep (lAttrs rAttrs : List (String × AValue))
    (acc : List String × List (String × Option AValue)) (p : String × AValue) :
    List String × List (String × Option AValue) :=
  if (objGet rAttrs p.1).isSome then acc
  else
    match eventName p.1 with
    | some event => (acc.1, objSet acc.2 event (objGet lAttrs p.1))
    | none => (acc.1 ++ [p.1], acc.2)

/-- Body of the second attribute loop of `diffOne`:
`for (const attr in r.attributes) if (r.attributes[attr] !== l.attributes[attr]) { ... }`
— a changed (or newly added) key is recorded in `setAttr` (when not
event-named) or in both `removeListeners` (old value, possibly `undefined`)
and `addListeners` (new value).  The accumulator is
`(setAttr, removeListeners, addListeners)`. -/
def changedAttrStep (lAttrs : List (String × AValue))
    (acc : List (String × AValue) × List (String × Option AValue) × List (String × AValue))
    (p : String × AValue) :
    List (String × AValue) × List (String × Option AValue) × List (String × AValue) :=
  if some p.2 = objGet lAttrs p.1 then acc
  else
    match eventName p.1 with
    | none => (objSet acc.1 p.1 p.2, acc.2.1, acc.2.2)
    | some event =>
      (acc.1, objSet acc.2.1 event (objGet lAttrs p.1), objSet acc.2.2 event p.2)

mutual

/-- The differ `diffOne(l, r)`: diff two specs.  Mirrors the source line by line: the
text check, the tag check, the two attribute loops (first loop: keys of `l`
absent in `r`; second loop: keys of `r` whose value differs from `l`'s), the
recursive `diffList` on children, and the final `noop` test, which inspects
only `children`, `removeAttr` and `setAttr`. -/
def diffOne (l r : Spec) : Except String ElementDiff :=
  if (Spec.textContent? l).isSome then
    if Spec.textContent? l ≠ Spec.textContent? r then .ok (.replace r) else .ok .noop
  else if Spec.tag? l ≠ Spec.tag? r then
    .ok (.replace r)
  else
    let fst := (Spec.attrs l).foldl (removedAttrStep (Spec.attrs l) (Spec.attrs r)) ([], [])
    let snd := (Spec.attrs r).foldl (changedAttrStep (Spec.attrs l)) ([], fst.2, [])
    match hl : Spec.children? l, hr : Spec.children? r with
    | some lc, some rc => do
      let children ← diffList lc rc
      if children.all ElementDiff.isNoop && fst.1.isEmpty && snd.1.isEmpty then
        .ok .noop
      else
        .ok (.modify (.mk fst.1 snd.1 snd.2.1 snd.2.2 children))
    | _, _ => .error "TypeError: spec.children is not iterable"
termination_by sizeOf l + sizeOf r
decreasing_by
  have h1 := sizeOf_children_lt hl
  have h2 := sizeOf_children_lt hr
  omega

/-- The list differ `diffList(ls_raw, rs_raw)`: filter `Empty` from both sides, then walk the
two filtered lists positionally (`diffPairs` renders the indexed `for` loop:
left exhausted ⇒ `Create`, right exhausted ⇒ `Remove`, else `diffOne`). -/
def diffList (ls_raw rs_raw : List Spec) : Except String (List ElementDiff) :=
  diffPairs (removeEmpty ls_raw) (removeEmpty rs_raw)
termination_by sizeOf ls_raw + sizeOf rs_raw + 1
decreasing_by
  have h1 := sizeOf_filter_le (fun e => !e.isEmptyNode) ls_raw
  have h2 := sizeOf_filter_le (fun e => !e.isEmptyNode) rs_raw
  simp only [removeEmpty]; omega

/-- The loop body of `diffList`: for `i` in `[0, max(|ls|,|rs|))`,
`ls[i] === undefined ? {create: rs[i]} : rs[i] == undefined ? {remove} :
diffOne(ls[i], rs[i])`. -/
def diffPairs : List Spec → List Spec → Except String (List ElementDiff)
  | [], [] => .ok []
  | [], r :: rs => do
    let ds ← diffPairs [] rs
    .ok (.create r :: ds)
  | _ :: ls, [] => do
    let ds ← diffPairs ls []
    .ok (.remove :: ds)
  | l :: ls, r :: rs => do
    let d ← diffOne l r
    let ds ← diffPairs ls rs
    .ok (d :: ds)
termination_by ls rs => sizeOf ls + sizeOf rs
decreasing_by
  all_goals simp <;> omega

end

/-- A listener function registered on a live node.  Every registration site in
the source creates a fresh closure `() => enqueue(msg)`; `uid` is its
reference identity (allocated from a counter threaded through the patcher)
and `msg` the captured message value. -/
inductive JSFun where
  | closure (uid : Nat) (msg : AValue)
deriving DecidableEq, Repr

/-- JS reference equality of two listener functions. -/
def JSFun.sameRef : JSFun → JSFun → Bool
  | .closure u _, .closure u' _ => u == u'

/-- The message a wrapper closure would enqueue when invoked. -/
def JSFun.msg : JSFun → AValue
  | .closure _ m => m

/-- The second argument passed to `removeEventListener`: either an actual
function, or a plain value (the differ stores the old *message value* in
`removeListeners`, not the bound closure).  A plain value is never
reference-equal to a function. -/
inductive ListenerArg where
  | fn (f : JSFun)
  | value (v : Option AValue)

def ListenerArg.matchesFun : ListenerArg → JSFun → Bool
  | .fn f, g => f.sameRef g
  | .value _, _ => false

/-- DOM `el.addEventListener(event, f)`: the DOM ignores a re-registration of the
same `(event, function)` pair, otherwise appends to the listener list. -/
def addEventListener (lsts : List (String × JSFun)) (event : String) (f : JSFun) :
    List (String × JSFun) :=
  if lsts.any (fun p => p.1 == event && p.2.sameRef f) then lsts else lsts ++ [(event, f)]

/-- DOM `el.removeEventListener(event, a)`: removes the listener whose function is
reference-equal to `a`; removes nothing when no registered listener matches. -/
def removeEventListener (lsts : List (String × JSFun)) (event : String) (a : ListenerArg) :
    List (String × JSFun) :=
  lsts.filter (fun p => !(p.1 == event && a.matchesFun p.2))

/-- A live render-tree node (DOM element or text node). -/
inductive LiveNode where
  | element (tag : String) (attributes : List (String × AValue))
      (listeners : List (String × JSFun)) (children : List LiveNode)
  | text (content : String)
deriving Repr

def LiveNode.attrs : LiveNode → List (String × AValue)
  | .element _ a _ _ => a
  | .text _ => []

def LiveNode.listeners : LiveNode → List (String × JSFun)
  | .element _ _ l _ => l
  | .text _ => []

/-- Property `el.childNodes` (a text node has none). -/
def LiveNode.childNodes : LiveNode → List LiveNode
  | .element _ _ _ cs => cs
  | .text _ => []

/-- Firing `event` on a live node: the DOM invokes the registered listeners in
registration order; each wrapper closure enqueues its captured message.  The
result is the list of messages delivered. -/
def dispatchEvent (el : LiveNode) (event : String) : List AValue :=
  el.listeners.filterMap (fun p => if p.1 == event then some p.2.msg else none)

mutual

/-- The builder `create(enqueue, spec)`: build a live node for a spec.  `fresh` is the
closure-allocation counter.  Faithful to the source, including:
* `document.createElement(spec.tag)` stringifies an `undefined` tag;
* the truthiness test `event ? addEventListener : setAttribute` (an empty
  event name, from the attribute name `"on"`, is falsy and falls through to
  `setAttribute`);
* the children loop `for (let i in children) { const childSpec =
  spec.children[i]; ... }` iterates the indices of the *filtered* list
  `children = removeEmpty(spec.children)` but reads `spec.children[i]`, the
  *unfiltered* list — so it creates the first `removeEmpty(children).length`
  entries of the unfiltered children. -/
def create (fresh : Nat) (spec : Spec) : Except String (LiveNode × Nat) :=
  match Spec.textContent? spec with
  | some s => .ok (.text s, fresh)
  | none =>
    let tag := (Spec.tag? spec).getD "undefined"
    let init : List (String × AValue) × List (String × JSFun) × Nat := ([], [], fresh)
    let st := (Spec.attrs spec).foldl (fun acc p =>
      match eventName p.1 with
      | some e =>
        if e == "" then (objSet acc.1 p.1 p.2, acc.2.1, acc.2.2)
        else (acc.1, addEventListener acc.2.1 e (JSFun.closure acc.2.2 p.2), acc.2.2 + 1)
      | none => (objSet acc.1 p.1 p.2, acc.2.1, acc.2.2)) init
    match hc : Spec.children? spec with
    | none => .error "TypeError: spec.children is not iterable"
    | some cs =>
      match createTake st.2.2 cs (removeEmpty cs).length with
      | .error e => .error e
      | .ok (lives, f2) => .ok (.element tag st.1 st.2.1 lives, f2)
termination_by sizeOf spec
decreasing_by
  have := sizeOf_children_lt hc
  omega

/-- Create live nodes for `cs[0]`, …, `cs[n-1]` (the children loop of
`create`), appending each to the element in order. -/
def createTake (fresh : Nat) (cs : List Spec) (n : Nat) : Except String (List LiveNode × Nat) :=
  match n, cs with
  | 0, _ => .ok ([], fresh)
  | _ + 1, [] => .ok ([], fresh)
  | m + 1, c :: rest =>
    match create fresh c with
    | .error e => .error e
    | .ok (node, f) =>
      match createTake f rest m with
      | .error e => .error e
      | .ok (nodes, f') => .ok (node :: nodes, f')
termination_by sizeOf cs
decreasing_by
  all_goals simp <;> omega

end

mutual

/-- The patch step `modify(el, enqueue, diff)`.  Faithful to the source, including:
* `for (const attr in diff.removeAttr)` iterates the *index keys* `"0"`,
  `"1"`, … of the array, so `el.removeAttribute` is called with those index
  strings, not with the attribute names stored in the array;
* `el.removeEventListener(event, diff.removeListeners[event])` passes the old
  *message value* (or `undefined`), never the wrapper closure that was
  actually registered, so no registered listener can match;
* `el.addEventListener(event, () => enqueue(msg))` registers a fresh closure;
* the `unmatched children lengths` guard precedes the recursion into
  children.
On a text node (which has no attribute or listener methods) the first
non-empty loop throws a `TypeError`; with every loop empty and only `Noop`
children the call does nothing. -/
def modify (fresh : Nat) (el : LiveNode) (d : ContentsDiff) : Except String (LiveNode × Nat) :=
  match el with
  | .text s =>
    if d.removeAttr.length == 0 && d.setAttr.isEmpty && d.removeListeners.isEmpty
        && d.addListeners.isEmpty && d.children.all ElementDiff.isNoop then
      .ok (.text s, fresh)
    else .error "TypeError"
  | .element tag attrs lsts cs =>
    match d with
    | .mk ra sa rl al ch =>
      let attrs1 := (List.range ra.length).foldl (fun a i => objRemove a (toString i)) attrs
      let attrs2 := sa.foldl (fun a p => objSet a p.1 p.2) attrs1
      let lsts1 := rl.foldl (fun l p => removeEventListener l p.1 (ListenerArg.value p.2)) lsts
      let st := al.foldl (fun acc p =>
        (addEventListener acc.1 p.1 (JSFun.closure acc.2 p.2), acc.2 + 1)) (lsts1, fresh)
      if ch.length < cs.length then .error "unmatched children lengths"
      else
        match applyDiffs st.2 cs 0 ch with
        | .error e => .error e
        | .ok (cs', f) => .ok (.element tag attrs2 st.1 cs', f)
termination_by sizeOf d
decreasing_by
  simp <;> omega

/-- The walker `apply(el, enqueue, childrenDiff)`: walk the edit scripts with index `k`
into the current live child list (`children`).  `Remove` detaches the child
at `k` and does not advance (`k--; k++`); `Modify` recurses; `Create` is
valid only at or beyond the end of the live list and appends; `Replace`
builds the new node first and substitutes it at `k`; `Noop` advances.
Reading `el.childNodes[k]` past the end yields `undefined` and the attempted
operation on it throws a `TypeError`. -/
def applyDiffs (fresh : Nat) (children : List LiveNode) (k : Nat) :
    List ElementDiff → Except String (List LiveNode × Nat)
  | [] => .ok (children, fresh)
  | d :: ds =>
    match d with
    | .remove =>
      match children[k]? with
      | none => .error "TypeError: cannot read remove of undefined"
      | some _ => applyDiffs fresh (children.eraseIdx k) k ds
    | .modify c =>
      match children[k]? with
      | none => .error "TypeError: el is undefined"
      | some ch =>
        match modify fresh ch c with
        | .error e => .error e
        | .ok (ch', f) => applyDiffs f (children.set k ch') (k + 1) ds
    | .create s =>
      if k < children.length then
        .error ("Adding in the middle of children: " ++ toString k ++ " "
          ++ toString children.length)
      else
        match create fresh s with
        | .error e => .error e
        | .ok (node, f) => applyDiffs f (children ++ [node]) (k + 1) ds
    | .replace s =>
      match create fresh s with
      | .error e => .error e
      | .ok (node, f) =>
        match children[k]? with
        | none => .error "TypeError: cannot read replaceWith of undefined"
        | some _ => applyDiffs f (children.set k node) (k + 1) ds
    | .noop => applyDiffs fresh children (k + 1) ds
termination_by ds => sizeOf ds
decreasing_by
  all_goals simp <;> omega

end

/-- The per-mount loop context of `init`: application `state`, previous
`spec`, message `queue`, plus the live tree (the root's child list) and the
closure-allocation counter of the model. -/
structure Ctx (σ μ : Type) where
  state : σ
  spec : List Spec
  queue : List μ
  rootChildren : List LiveNode
  fresh : Nat

/-- The redraw `draw()`: `apply(root, enqueue, diffList(spec, newSpec)); spec = newSpec`.
If the patch throws, `spec` is not updated. -/
def draw {σ μ : Type} (view : σ → List Spec) (ctx : Ctx σ μ) : Except String (Ctx σ μ) :=
  let newSpec := view ctx.state
  match diffList ctx.spec newSpec with
  | .error e => .error e
  | .ok ds =>
    match applyDiffs ctx.fresh ctx.rootChildren 0 ds with
    | .error e => .error e
    | .ok (cs, f) => .ok { ctx with spec := newSpec, rootChildren := cs, fresh := f }

/-- One paced tick of `updateState` (minus the unconditional
re-registration for the next tick): if the queue is non-empty, take it,
reset it, fold `update` over the snapshot in arrival order, then `draw()`.
`update(state, msg, enqueue)` is modelled as returning the new state paired
with the messages it enqueues, which are appended to the (fresh) queue in
order. -/
def tick {σ μ : Type} (update : σ → μ → σ × List μ) (view : σ → List Spec) (ctx : Ctx σ μ) :
    Except String (Ctx σ μ) :=
  if ctx.queue.length > 0 then
    let msgs := ctx.queue
    let ctx1 : Ctx σ μ := { ctx with queue := [] }
    let ctx2 := msgs.foldl (fun c msg =>
      let r := update c.state msg
      { c with state := r.1, queue := c.queue ++ r.2 }) ctx1
    draw view ctx2
  else .ok ctx

example : diffOne (Spec.text "a") (Spec.text "a") = .ok .noop := by
  simp [diffOne, Spec.textContent?]

example : diffOne (Spec.text "a") (Spec.text "b") = .ok (.replace (Spec.text "b")) := by
  simp [diffOne, Spec.textContent?]

example : diffOne Spec.empty Spec.empty = .error "TypeError: spec.children is not iterable" := by
  simp [diffOne, Spec.textContent?, Spec.tag?, Spec.children?, Spec.attrs]

example : diffOne (Spec.element "button" [("onclick", AValue.handler 1)] [])
    (Spec.element "button" [("onclick", AValue.handler 2)] []) = .ok .noop := by
  simp [diffOne, Spec.textContent?, Spec.tag?, Spec.children?, Spec.attrs, objGet, objSet,
    eventName, diffList, diffPairs, removeEmpty, Spec.isEmptyNode, ElementDiff.isNoop,
    removedAttrStep, changedAttrStep, Except.bind]

example : create 0 (Spec.element "div" [] [Spec.empty, Spec.text "x"])
    = .error "TypeError: spec.children is not iterable" := by
  simp [create, createTake, Spec.textContent?, Spec.tag?, Spec.attrs, Spec.children?,
    removeEmpty, Spec.isEmptyNode, eventName]

example : create 0 (Spec.element "div" [] [Spec.text "x", Spec.empty])
    = .ok (.element "div" [] [] [.text "x"], 0) := by
  simp [create, createTake, Spec.textContent?, Spec.tag?, Spec.attrs, Spec.children?,
    removeEmpty, Spec.isEmptyNode, eventName]

example : modify 0 (LiveNode.element "div" [("id", AValue.str "x")] [] [])
    (ContentsDiff.mk ["id"] [] [] [] [])
    = .ok (.element "div" [("id", AValue.str "x")] [] [], 0) := by
  simp [modify, applyDiffs, objRemove, objSet, ContentsDiff.removeAttr, ContentsDiff.setAttr,
    ContentsDiff.removeListeners, ContentsDiff.addListeners, ContentsDiff.children,
    removeEventListener, addEventListener, List.range_succ]
  decide

example : create 0 (Spec.element "b" [("class", AValue.str "a"), ("onclick", AValue.handler 1)] [])
    = .ok (.element "b" [("class", AValue.str "a")] [("click", JSFun.closure 0 (AValue.handler 1))] [], 1) := by
  simp [create, createTake, Spec.textContent?, Spec.tag?, Spec.attrs, Spec.children?,
    removeEmpty, Spec.isEmptyNode, eventName, objSet, addEventListener, JSFun.sameRef]

example : modify 1 (LiveNode.element "b" [("class", AValue.str "a")]
      [("click", JSFun.closure 0 (AValue.handler 1))] [])
    (ContentsDiff.mk [] [("class", AValue.str "b")] [("click", some (AValue.handler 1))]
      [("click", AValue.handler 2)] [])
    = .ok (.element "b" [("class", AValue.str "b")]
      [("click", JSFun.closure 0 (AValue.handler 1)), ("click", JSFun.closure 1 (AValue.handler 2))] [], 2) := by
  simp [modify, applyDiffs, objRemove, objSet, removeEventListener, addEventListener,
    JSFun.sameRef, ListenerArg.matchesFun]

example : dispatchEvent (.element "b" [("class", AValue.str "b")]
      [("click", JSFun.closure 0 (AValue.handler 1)), ("click", JSFun.closure 1 (AValue.handler 2))] [])
    "click" = [AValue.handler 1, AValue.handler 2] := by
  simp [dispatchEvent, LiveNode.listeners, JSFun.msg]

/-! ## Well-formedness

A JS object cannot carry two properties with the same key, so every
attribute record produced by the spec builders has pairwise distinct keys.
The association-list embedding can express duplicate keys, which no actual
run of the program can produce; `Spec.wf` carves out the JS-expressible spec
trees. -/

/-- Pairwise-distinct keys, as every JS object satisfies. -/
def nodupKeysB {α : Type} : List (String × α) → Bool
  | [] => true
  | (k, _) :: rest => !(rest.any (fun p => p.1 == k)) && nodupKeysB rest

mutual

/-- Every element's attribute record has distinct keys, recursively. -/
def Spec.wf : Spec → Bool
  | .element _ attrs cs => nodupKeysB attrs && wfList cs
  | _ => true

def wfList : List Spec → Bool
  | [] => true
  | c :: cs => Spec.wf c && wfList cs

end

theorem wfList_mem {cs : List Spec} (h : wfList cs = true) : ∀ c ∈ cs, Spec.wf c = true := by
  induction cs with
  | nil => simp
  | cons c cs ih =>
    simp only [wfList, Bool.and_eq_true] at h
    intro x hx
    rcases List.mem_cons.mp hx with rfl | hx'
    · exact h.1
    · exact ih h.2 x hx'

theorem isEmptyNode_false_iff {x : Spec} : x.isEmptyNode = false ↔ x ≠ Spec.empty := by
  cases x <;> simp [Spec.isEmptyNode]

theorem mem_removeEmpty {x : Spec} {cs : List Spec} (h : x ∈ removeEmpty cs) :
    x ∈ cs ∧ x ≠ Spec.empty := by
  have := List.mem_filter.mp h
  exact ⟨this.1, isEmptyNode_false_iff.mp (by simpa using this.2)⟩

theorem objGet_isSome_of_mem {α : Type} {xs : List (String × α)} {p : String × α}
    (h : p ∈ xs) : (objGet xs p.1).isSome := by
  simp only [objGet, Option.isSome_map', List.find?_isSome]
  exact ⟨p, h, by simp⟩

theorem objGet_of_nodup {α : Type} :
    ∀ (xs : List (String × α)) (p : String × α), nodupKeysB xs = true → p ∈ xs →
      objGet xs p.1 = some p.2 := by
  intro xs
  induction xs with
  | nil => intro p _ hp; cases hp
  | cons q rest ih =>
    intro p hw hp
    obtain ⟨k, v⟩ := q
    simp only [nodupKeysB, Bool.and_eq_true, Bool.not_eq_true', List.any_eq_false,
      beq_eq_false_iff_ne] at hw
    rcases List.mem_cons.mp hp with rfl | hp'
    · simp [objGet]
    · have hne : p.1 ≠ k := by simpa using hw.1 p hp'
      simp only [objGet]
      rw [List.find?_cons_of_neg _ (by simpa using Ne.symm hne)]
      exact ih p hw.2 hp'

theorem foldl_fixed {α β : Type} (f : α → β → α) (init : α) (xs : List β)
    (h : ∀ a b, b ∈ xs → f a b = a) : xs.foldl f init = init := by
  induction xs generalizing init with
  | nil => rfl
  | cons x xs ih =>
    rw [List.foldl_cons, h init x (by simp)]
    exact ih init (fun a b hb => h a b (by simp [hb]))

/-- Diffing an attribute record against itself records no removal. -/
theorem removedAttrStep_self {a : List (String × AValue)}
    (acc : List String × List (String × Option AValue)) (p : String × AValue) (hp : p ∈ a) :
    removedAttrStep a a acc p = acc := by
  simp [removedAttrStep, objGet_isSome_of_mem hp]

/-- Diffing a duplicate-free attribute record against itself records no
change. -/
theorem changedAttrStep_self {a : List (String × AValue)} (hw : nodupKeysB a = true)
    (acc : List (String × AValue) × List (String × Option AValue) × List (String × AValue))
    (p : String × AValue) (hp : p ∈ a) :
    changedAttrStep a acc p = acc := by
  simp [changedAttrStep, objGet_of_nodup a p hw hp]

mutual

/-- Diffing a well-formed non-empty spec against (a structurally equal copy
of) itself yields `Noop`: no attribute or listener delta is recorded and
every child diff is again `Noop`. -/
theorem diffOne_self : ∀ (T : Spec), Spec.wf T = true → T ≠ Spec.empty →
    diffOne T T = .ok ElementDiff.noop
  | .text s, _, _ => by simp [diffOne, Spec.textContent?]
  | .empty, _, hne => absurd rfl hne
  | .element t a cs, hw, _ => by
    have hw' : nodupKeysB a = true ∧ wfList cs = true := by
      simpa [Spec.wf, Bool.and_eq_true] using hw
    have hfilter : ∀ x ∈ removeEmpty cs, Spec.wf x = true ∧ x ≠ Spec.empty := by
      intro x hx
      obtain ⟨hmem, hne'⟩ := mem_removeEmpty hx
      exact ⟨wfList_mem hw'.2 x hmem, hne'⟩
    have h1 : diffPairs (removeEmpty cs) (removeEmpty cs)
        = .ok ((removeEmpty cs).map fun _ => ElementDiff.noop) :=
      diffPairs_self (removeEmpty cs) hfilter
    simp only [diffOne, Spec.textContent?, Spec.tag?, Spec.attrs, Spec.children?, diffList,
      Option.isSome_none, Bool.false_eq_true, if_false, ne_eq, not_true_eq_false, ite_false]
    rw [foldl_fixed _ _ _ (fun acc p hp => removedAttrStep_self acc p hp),
      foldl_fixed _ _ _ (fun acc p hp => changedAttrStep_self hw'.1 acc p hp), h1]
    simp [ElementDiff.isNoop, List.all_map]
termination_by T => sizeOf T
decreasing_by
  have := sizeOf_filter_le (fun e => !e.isEmptyNode) cs
  simp only [removeEmpty]
  simp
  omega

theorem diffPairs_self : ∀ (ls : List Spec), (∀ x ∈ ls, Spec.wf x = true ∧ x ≠ Spec.empty) →
    diffPairs ls ls = .ok (ls.map fun _ => ElementDiff.noop)
  | [], _ => by simp [diffPairs]
  | l :: ls', h => by
    have hd := h l (by simp)
    have h1 : diffOne l l = .ok ElementDiff.noop := diffOne_self l hd.1 hd.2
    have h2 : diffPairs ls' ls' = .ok (ls'.map fun _ => ElementDiff.noop) :=
      diffPairs_self ls' (fun x hx => h x (by simp [hx]))
    simp [diffPairs, h1, h2]
termination_by ls => sizeOf ls
decreasing_by
  all_goals simp <;> omega

end

mutual

/-- The function `diffOne` never throws when its left argument is not an `Empty` node. -/
theorem diffOne_total : ∀ (l r : Spec), l ≠ Spec.empty → ∃ d, diffOne l r = .ok d
  | .text s, r, _ => by
    simp only [diffOne, Spec.textContent?, Option.isSome_some, if_true]
    split
    · exact ⟨_, rfl⟩
    · exact ⟨_, rfl⟩
  | .empty, _, hne => absurd rfl hne
  | .element t a cs, r, _ => by
    match r with
    | .text s' =>
      refine ⟨.replace (.text s'), ?_⟩
      simp [diffOne, Spec.textContent?, Spec.tag?]
    | .empty =>
      refine ⟨.replace .empty, ?_⟩
      simp [diffOne, Spec.textContent?, Spec.tag?]
    | .element t' a' cs' =>
      by_cases ht : t = t'
      · subst ht
        obtain ⟨ds, hds⟩ := diffPairs_total (removeEmpty cs) (removeEmpty cs')
          (fun x hx => (mem_removeEmpty hx).2)
        simp only [diffOne, Spec.textContent?, Spec.tag?, Spec.attrs, Spec.children?, diffList,
          Option.isSome_none, Bool.false_eq_true, if_false, ne_eq, not_true_eq_false, ite_false]
        rw [hds]
        simp only [ok_bind]
        split
        · exact ⟨_, rfl⟩
        · exact ⟨_, rfl⟩
      · refine ⟨.replace (.element t' a' cs'), ?_⟩
        simp [diffOne, Spec.textContent?, Spec.tag?, ht]
termination_by l r => sizeOf l + sizeOf r
decreasing_by
  have h1 := sizeOf_filter_le (fun e => !e.isEmptyNode) cs
  have h2 := sizeOf_filter_le (fun e => !e.isEmptyNode) cs'
  simp only [removeEmpty]
  simp
  omega

/-- The function `diffPairs` never throws when no left node is `Empty`. -/
theorem diffPairs_total : ∀ (ls rs : List Spec), (∀ x ∈ ls, x ≠ Spec.empty) →
    ∃ ds, diffPairs ls rs = .ok ds
  | [], [], _ => ⟨[], by simp [diffPairs]⟩
  | [], r :: rs, _ => by
    obtain ⟨ds, hds⟩ := diffPairs_total [] rs (by simp)
    exact ⟨.create r :: ds, by simp [diffPairs, hds]⟩
  | _ :: ls, [], h => by
    obtain ⟨ds, hds⟩ := diffPairs_total ls [] (fun x hx => h x (by simp [hx]))
    exact ⟨.remove :: ds, by simp [diffPairs, hds]⟩
  | l :: ls, r :: rs, h => by
    obtain ⟨d, hd⟩ := diffOne_total l r (h l (by simp))
    obtain ⟨ds, hds⟩ := diffPairs_total ls rs (fun x hx => h x (by simp [hx]))
    exact ⟨d :: ds, by simp [diffPairs, hd, hds]⟩
termination_by ls rs => sizeOf ls + sizeOf rs
decreasing_by
  all_goals simp <;> omega

end

/-- When the left list is exhausted, every remaining position is a `Create`. -/
theorem diffPairs_nil_left : ∀ (rs : List Spec), diffPairs [] rs = .ok (rs.map ElementDiff.create)
  | [] => by simp [diffPairs]
  | r :: rs => by simp [diffPairs, diffPairs_nil_left rs]

/-- When the right list is exhausted, every remaining position is a `Remove`. -/
theorem diffPairs_nil_right : ∀ (ls : List Spec),
    diffPairs ls [] = .ok (ls.map fun _ => ElementDiff.remove)
  | [] => by simp [diffPairs]
  | l :: ls => by simp [diffPairs, diffPairs_nil_right ls]

/-- Index-wise characterization of the positional walk `diffPairs` (the loop
body of `diffList`, applied after the `Empty` filter): the result has length
`max(|ls|,|rs|)`; position `i` is `Create(rs[i])` when the left list is
exhausted, `Remove` when the right list is exhausted, and `diffOne(ls[i],
rs[i])` otherwise. -/
theorem diffPairs_char : ∀ (ls rs : List Spec), (∀ x ∈ ls, x ≠ Spec.empty) →
    ∃ ds, diffPairs ls rs = .ok ds ∧ ds.length = max ls.length rs.length ∧
      ∀ (i : Nat) (hi : i < ds.length),
        (ls.length ≤ i → ∃ h2 : i < rs.length, ds.get ⟨i, hi⟩ = .create (rs.get ⟨i, h2⟩)) ∧
        (rs.length ≤ i → ds.get ⟨i, hi⟩ = .remove) ∧
        (∀ (h1 : i < ls.length) (h2 : i < rs.length),
          diffOne (ls.get ⟨i, h1⟩) (rs.get ⟨i, h2⟩) = .ok (ds.get ⟨i, hi⟩))
  | [], rs, _ => by
    refine ⟨rs.map .create, diffPairs_nil_left rs, by simp, ?_⟩
    intro i hi
    have hi' : i < rs.length := by simpa using hi
    refine ⟨?_, ?_, ?_⟩
    · intro _
      exact ⟨hi', by simp⟩
    · intro hle
      exact absurd hi' (by omega)
    · intro h1 _
      exact absurd h1 (by simp)
  | l :: ls', [], h => by
    refine ⟨(l :: ls').map (fun _ => .remove), diffPairs_nil_right (l :: ls'), by simp, ?_⟩
    intro i hi
    have hi' : i < (l :: ls').length := by simpa using hi
    refine ⟨?_, ?_, ?_⟩
    · intro hle
      exact absurd hi' (by omega)
    · intro _
      simp [← List.replicate_succ, List.getElem_replicate]
    · intro _ h2
      exact absurd h2 (by simp)
  | l :: ls', r :: rs', h => by
    obtain ⟨d, hd⟩ := diffOne_total l r (h l (by simp))
    obtain ⟨ds', hds', hlen', hclause'⟩ := diffPairs_char ls' rs' (fun x hx => h x (by simp [hx]))
    refine ⟨d :: ds', by simp [diffPairs, hd, hds'], by simp [hlen']; omega, ?_⟩
    intro i hi
    match i with
    | 0 =>
      refine ⟨fun hle => absurd hle (by simp), fun hle => absurd hle (by simp), ?_⟩
      intro h1 h2
      simpa using hd
    | Nat.succ i =>
      have hi' : i < ds'.length := by
        simp only [List.length_cons] at hi
        omega
      obtain ⟨c1, c2, c3⟩ := hclause' i hi'
      refine ⟨?_, ?_, ?_⟩
      · intro hle
        obtain ⟨h2, heq⟩ := c1 (by simpa using hle)
        exact ⟨by simpa using Nat.succ_lt_succ h2, by simpa using heq⟩
      · intro hle
        simpa using c2 (by simpa using hle)
      · intro h1 h2
        simpa using c3 (Nat.lt_of_succ_lt_succ (by simpa using h1))
          (Nat.lt_of_succ_lt_succ (by simpa using h2))

/-! ## Claims -/

/-- Claim C1.  The claim states that diffing two elements equal except for
the `onclick` handler (`f` vs `g`, `f ≠ g`) yields a `Modify` with
`removeListeners = {click: f}` and `addListeners = {click: g}`, not `Noop`.
The code violates it: the final no-change test of `diffOne` inspects only
`removeAttr`, `setAttr` and the child scripts, never the listener maps, so a
pure listener change is discarded and `Noop` is returned.  This theorem
evaluates the code at the failing input. -/
theorem diffOne_discards_pure_listener_change :
    diffOne (Spec.element "button" [("onclick", AValue.handler 1)] [])
      (Spec.element "button" [("onclick", AValue.handler 2)] [])
      = .ok ElementDiff.noop := by
  simp [diffOne, Spec.textContent?, Spec.tag?, Spec.children?, Spec.attrs, objGet, objSet,
    eventName, diffList, diffPairs, removeEmpty, Spec.isEmptyNode, ElementDiff.isNoop,
    removedAttrStep, changedAttrStep]

/-- Claim C2.  The claim states that applying a `Modify` leaves at most one
listener bound per event and that firing delivers only the new message.  The
code violates it: `modify` passes the *old message value* to
`removeEventListener`, but the listener actually registered is the wrapper
closure `() => enqueue(msg)` created at bind time, so nothing is unbound;
the subsequent `addEventListener` then registers a second closure.  At the
failing input — a live `<b class="a" onclick=h1>` patched with the edit the
differ produces against `<b class="b" onclick=h2>` — the element ends up
with two `click` listeners and firing `click` delivers both the old and the
new message. -/
theorem modify_accumulates_listeners :
    diffOne (Spec.element "b" [("class", AValue.str "a"), ("onclick", AValue.handler 1)] [])
        (Spec.element "b" [("class", AValue.str "b"), ("onclick", AValue.handler 2)] [])
      = .ok (.modify (.mk [] [("class", AValue.str "b")] [("click", some (AValue.handler 1))]
          [("click", AValue.handler 2)] []))
    ∧ create 0 (Spec.element "b" [("class", AValue.str "a"), ("onclick", AValue.handler 1)] [])
      = .ok (.element "b" [("class", AValue.str "a")]
          [("click", JSFun.closure 0 (AValue.handler 1))] [], 1)
    ∧ modify 1 (LiveNode.element "b" [("class", AValue.str "a")]
          [("click", JSFun.closure 0 (AValue.handler 1))] [])
        (ContentsDiff.mk [] [("class", AValue.str "b")] [("click", some (AValue.handler 1))]
          [("click", AValue.handler 2)] [])
      = .ok (.element "b" [("class", AValue.str "b")]
          [("click", JSFun.closure 0 (AValue.handler 1)),
           ("click", JSFun.closure 1 (AValue.handler 2))] [], 2)
    ∧ dispatchEvent (.element "b" [("class", AValue.str "b")]
          [("click", JSFun.closure 0 (AValue.handler 1)),
           ("click", JSFun.closure 1 (AValue.handler 2))] []) "click"
      = [AValue.handler 1, AValue.handler 2] := by
  refine ⟨?_, ?_, ?_, ?_⟩
  · simp [diffOne, Spec.textContent?, Spec.tag?, Spec.children?, Spec.attrs, objGet, objSet,
      eventName, diffList, diffPairs, removeEmpty, ElementDiff.isNoop,
      removedAttrStep, changedAttrStep]
  · simp [create, createTake, Spec.textContent?, Spec.tag?, Spec.attrs, Spec.children?,
      removeEmpty, Spec.isEmptyNode, eventName, objSet, addEventListener, JSFun.sameRef]
  · simp [modify, applyDiffs, objRemove, objSet, removeEventListener, addEventListener,
      JSFun.sameRef, ListenerArg.matchesFun]
  · simp [dispatchEvent, LiveNode.listeners, JSFun.msg]

/-- Claim C3.  The claim states that `create` skips `Empty` children
entirely, building live children exactly for the non-`Empty` children in
order.  The code violates it: the children loop iterates the *indices* of
the filtered list but reads `spec.children[i]` from the *unfiltered* list,
so any `Empty` occurring before a non-`Empty` child is itself passed to
`create`, which throws (an empty node's `children` is `undefined`).  First
conjunct: the failing input.  Second conjunct: on the already-filtered
children list the claimed result holds, showing the divergence is exactly
the unfiltered indexing. -/
theorem create_trips_on_leading_empty :
    create 0 (Spec.element "div" [] [Spec.empty, Spec.text "x"])
      = .error "TypeError: spec.children is not iterable"
    ∧ create 0 (Spec.element "div" [] [Spec.text "x"])
      = .ok (.element "div" [] [] [.text "x"], 0) := by
  constructor
  · simp [create, createTake, Spec.textContent?, Spec.tag?, Spec.attrs, Spec.children?,
      removeEmpty, Spec.isEmptyNode, eventName]
  · simp [create, createTake, Spec.textContent?, Spec.tag?, Spec.attrs, Spec.children?,
      removeEmpty, Spec.isEmptyNode, eventName]

/-- Claim C4.  The claim states that applying a `Modify` deletes every
attribute named in `removeAttr` and leaves unmentioned attributes
unchanged.  The code violates it: `for (const attr in diff.removeAttr)`
iterates the *index keys* `"0"`, `"1"`, … of the array, so
`el.removeAttribute` is called with those index strings.  At the failing
input — `<div id="x" a0="z">` patched with the edit the differ produces
against `<div a0="z">`, namely `removeAttr = ["id"]` — the attribute `id`
survives, and an attribute literally named `"0"` (not mentioned in the
edit) is deleted instead. -/
theorem modify_removes_index_named_attributes :
    diffOne (Spec.element "div" [("id", AValue.str "x"), ("0", AValue.str "z")] [])
        (Spec.element "div" [("0", AValue.str "z")] [])
      = .ok (.modify (.mk ["id"] [] [] [] []))
    ∧ modify 0 (LiveNode.element "div" [("id", AValue.str "x"), ("0", AValue.str "z")] [] [])
        (ContentsDiff.mk ["id"] [] [] [] [])
      = .ok (.element "div" [("id", AValue.str "x")] [] [], 0) := by
  constructor
  · simp [diffOne, Spec.textContent?, Spec.tag?, Spec.children?, Spec.attrs, objGet, objSet,
      eventName, diffList, diffPairs, removeEmpty, ElementDiff.isNoop,
      removedAttrStep, changedAttrStep]
  · simp [modify, applyDiffs, objRemove, objSet, removeEventListener, addEventListener,
      List.range_succ]
    decide

/-- Claim C5, counterexample.  The claim quantifies over *every* spec tree
`T`, but diffing the `Empty` node against itself does not yield a script at
all: both tag reads are `undefined`, so the tag test passes, and
`diffList(undefined, undefined)` throws a `TypeError` from
`Array.from(undefined)`. -/
theorem diffOne_empty_empty_throws :
    diffOne Spec.empty Spec.empty = .error "TypeError: spec.children is not iterable" := by
  simp [diffOne, Spec.textContent?, Spec.tag?, Spec.children?, Spec.attrs]

/-- Claim C5, as amended: for every *non-`Empty`* spec tree `T` whose
attribute records have JS-object (duplicate-free) keys, diffing `T` against
a structurally equal instance of itself yields `Noop` at the root — which in
particular satisfies the claimed "`Noop`, or a `Modify` with empty deltas
and all-`Noop` children". -/
theorem diff_structurally_equal_noop (T : Spec) (hw : Spec.wf T = true) (hne : T ≠ Spec.empty) :
    diffOne T T = .ok ElementDiff.noop :=
  diffOne_self T hw hne

/-- Witness for the amended claim C5 at a concrete tree. -/
theorem diff_structurally_equal_noop_witness :
    diffOne (Spec.element "div" [("id", AValue.str "x")] [Spec.text "hi"])
      (Spec.element "div" [("id", AValue.str "x")] [Spec.text "hi"]) = .ok ElementDiff.noop :=
  diff_structurally_equal_noop (Spec.element "div" [("id", AValue.str "x")] [Spec.text "hi"])
    (by simp [Spec.wf, wfList, nodupKeysB]) (by simp)

/-- Claim C6.  `diffList` filters `Empty` from both inputs and then produces
one script per position `i < max(|prev|,|next|)`: `Create(next[i])` when
`i ≥ |prev|`, `Remove` when `i ≥ |next|`, and `diffOne(prev[i], next[i])`
otherwise; in particular (for nodes that survive the filter, the left one
well-formed so that its self-diff is `Noop`) `diffList([A],[A,B]) = [Noop,
Create(B)]` and `diffList([A,B],[A]) = [Noop, Remove]`. -/
theorem diffList_positional :
    (∀ ls rs : List Spec, ∃ ds, diffList ls rs = .ok ds ∧
      ds.length = max (removeEmpty ls).length (removeEmpty rs).length ∧
      ∀ (i : Nat) (hi : i < ds.length),
        ((removeEmpty ls).length ≤ i → ∃ h2 : i < (removeEmpty rs).length,
          ds.get ⟨i, hi⟩ = .create ((removeEmpty rs).get ⟨i, h2⟩)) ∧
        ((removeEmpty rs).length ≤ i → ds.get ⟨i, hi⟩ = .remove) ∧
        (∀ (h1 : i < (removeEmpty ls).length) (h2 : i < (removeEmpty rs).length),
          diffOne ((removeEmpty ls).get ⟨i, h1⟩) ((removeEmpty rs).get ⟨i, h2⟩)
            = .ok (ds.get ⟨i, hi⟩)))
    ∧ (∀ A B : Spec, A.isEmptyNode = false → B.isEmptyNode = false → Spec.wf A = true →
        diffList [A] [A, B] = .ok [.noop, .create B]
        ∧ diffList [A, B] [A] = .ok [.noop, .remove]) := by
  constructor
  · intro ls rs
    obtain ⟨ds, h1, h2, h3⟩ := diffPairs_char (removeEmpty ls) (removeEmpty rs)
      (fun x hx => (mem_removeEmpty hx).2)
    exact ⟨ds, by simpa [diffList] using h1, h2, h3⟩
  · intro A B hA hB hwA
    have hAne : A ≠ Spec.empty := isEmptyNode_false_iff.mp hA
    have hself : diffOne A A = .ok ElementDiff.noop := diffOne_self A hwA hAne
    constructor
    · simp [diffList, removeEmpty, hA, hB, diffPairs, hself]
    · simp [diffList, removeEmpty, hA, hB, diffPairs, hself]

/-- Witness for claim C6 at a concrete input (its second part, whose
hypotheses are discharged concretely; the first part is hypothesis-free). -/
theorem diffList_positional_witness :
    diffList [Spec.text "a"] [Spec.text "a", Spec.text "b"]
      = .ok [.noop, .create (Spec.text "b")]
    ∧ diffList [Spec.text "a", Spec.text "b"] [Spec.text "a"] = .ok [.noop, .remove] :=
  diffList_positional.2 (Spec.text "a") (Spec.text "b") rfl rfl (by simp [Spec.wf])

/-- Claim C7.  `Empty` nodes are transparent to list diffing: the
spec's concrete instance, and in general `diffList` only ever sees its
inputs through `removeEmpty`, so interleaving `Empty` nodes into either
input leaves the result unchanged. -/
theorem diffList_empty_transparent :
    (∀ A B : Spec, diffList [Spec.empty, A, Spec.empty, B] [A, B] = diffList [A, B] [A, B])
    ∧ (∀ ls rs : List Spec, diffList ls rs = diffList (removeEmpty ls) (removeEmpty rs)) := by
  constructor
  · intro A B
    have h : removeEmpty [Spec.empty, A, Spec.empty, B] = removeEmpty [A, B] := by
      simp [removeEmpty, List.filter, Spec.isEmptyNode]
    simp only [diffList, h]
  · intro ls rs
    have h : ∀ xs : List Spec, removeEmpty (removeEmpty xs) = removeEmpty xs := by
      intro xs
      simp [removeEmpty, List.filter_filter]
    simp only [diffList, h]

/-- Claim C8.  If the queue holds `m1` then `m2` when a tick runs, the tick
folds `update` over them in arrival order — the whole tick equals a *single*
`draw` (one view/diff/patch) performed on the folded state — and the
messages `update` enqueues while folding form the new queue, untouched by
this tick's drawing. -/
theorem tick_folds_batch_into_one_draw {σ μ : Type} (update : σ → μ → σ × List μ)
    (view : σ → List Spec) (ctx : Ctx σ μ) (m1 m2 : μ) (h : ctx.queue = [m1, m2]) :
    tick update view ctx = draw view
      { ctx with
        state := (update (update ctx.state m1).1 m2).1,
        queue := (update ctx.state m1).2 ++ (update (update ctx.state m1).1 m2).2 } := by
  simp [tick, h]

/-- Witness for claim C8 at a concrete scheduler instance. -/
theorem tick_folds_batch_into_one_draw_witness :
    tick (fun (s m : Nat) => (s + m, ([] : List Nat))) (fun _ => [])
      (Ctx.mk 0 [] [1, 2] [] 0)
      = draw (fun _ => []) (Ctx.mk 3 [] ([] ++ []) [] 0) := by
  simpa using tick_folds_batch_into_one_draw (fun (s m : Nat) => (s + m, ([] : List Nat)))
    (fun _ => []) (Ctx.mk 0 [] [1, 2] [] 0) 1 2 rfl

/-- Claim C9.  Applying a `Modify` whose declared child count
(`diff.children.length`) is smaller than the live node's actual child count
throws `unmatched children lengths` — before recursing into any child —
rather than silently truncating. -/
theorem modify_child_undercount_throws (fresh : Nat) (el : LiveNode) (d : ContentsDiff)
    (h : d.children.length < el.childNodes.length) :
    modify fresh el d = .error "unmatched children lengths" := by
  match el with
  | .text s => simp [LiveNode.childNodes] at h
  | .element tag attrs lsts cs =>
    match d with
    | .mk ra sa rl al ch =>
      simp only [LiveNode.childNodes, ContentsDiff.children] at h
      simp [modify, h]

/-- Witness for claim C9 at a concrete live element with one extra child. -/
theorem modify_child_undercount_throws_witness :
    modify 0 (LiveNode.element "div" [] [] [LiveNode.text "a"])
      (ContentsDiff.mk [] [] [] [] []) = .error "unmatched children lengths" :=
  modify_child_undercount_throws 0 (LiveNode.element "div" [] [] [LiveNode.text "a"])
    (ContentsDiff.mk [] [] [] [] []) (by decide)

/-- Claim C10, counterexample.  The claim asserts the `"on"`-prefix
classification "is applied identically by `create` and by the differ's delta
computation".  The attribute name `"on"` itself refutes this: `eventName`
maps it to the empty event name, which the differ's `event !== null` check
accepts (recording listeners under event `""`), while `create`'s truthiness
check `event ? addEventListener : setAttribute` rejects the empty string and
sets `"on"` as a plain string attribute, binding no listener. -/
theorem on_attribute_classified_differently :
    create 0 (Spec.element "div" [("on", AValue.str "v")] [])
      = .ok (.element "div" [("on", AValue.str "v")] [] [], 0)
    ∧ diffOne (Spec.element "div" [("x", AValue.str "1")] [])
        (Spec.element "div" [("x", AValue.str "2"), ("on", AValue.str "v")] [])
      = .ok (.modify (.mk [] [("x", AValue.str "2")] [("", none)] [("", AValue.str "v")] [])) := by
  constructor
  · simp [create, createTake, Spec.textContent?, Spec.tag?, Spec.attrs, Spec.children?,
      removeEmpty, Spec.isEmptyNode, eventName, objSet]
  · simp [diffOne, Spec.textContent?, Spec.tag?, Spec.children?, Spec.attrs, objGet, objSet,
      eventName, diffList, diffPairs, removeEmpty, ElementDiff.isNoop,
      removedAttrStep, changedAttrStep]

/-- Claim C10, as amended: a name is classified as an event binding by the
*differ* exactly when it begins with `"on"`, the event being the lowercased
remainder; `create` agrees on every such name whose derived event name is
non-empty (every name strictly longer than `"on"`), treating it as a
listener for the same event, and the two also agree that names without the
prefix are plain attributes — only the exact name `"on"` (empty remainder)
is classified differently, as the counterexample shows.  Stated on
single-attribute elements (and a disjoint helper attribute `"x"` so the
differ produces a `Modify`). -/
theorem event_classification_agrees (attr e : String) (v : AValue) :
    (eventName attr = some e → e ≠ "" →
      create 0 (Spec.element "div" [(attr, v)] [])
        = .ok (.element "div" [] [(e, JSFun.closure 0 v)] [], 1)
      ∧ diffOne (Spec.element "div" [("x", AValue.str "1")] [])
          (Spec.element "div" [("x", AValue.str "2"), (attr, v)] [])
        = .ok (.modify (.mk [] [("x", AValue.str "2")] [(e, none)] [(e, v)] [])))
    ∧ (eventName attr = none → attr ≠ "x" →
      create 0 (Spec.element "div" [(attr, v)] [])
        = .ok (.element "div" [(attr, v)] [] [], 0)
      ∧ diffOne (Spec.element "div" [("x", AValue.str "1")] [])
          (Spec.element "div" [("x", AValue.str "2"), (attr, v)] [])
        = .ok (.modify (.mk [] [("x", AValue.str "2"), (attr, v)] [] [] []))) := by
  have hevx : eventName "x" = none := rfl
  constructor
  · intro hev he
    have hne : attr ≠ "x" := by
      intro hc
      rw [hc, hevx] at hev
      exact Option.noConfusion hev
    have he' : (e == "") = false := beq_eq_false_iff_ne.mpr he
    have hx : ("x" == attr) = false := beq_eq_false_iff_ne.mpr (Ne.symm hne)
    constructor
    · simp [create, createTake, Spec.textContent?, Spec.tag?, Spec.attrs, Spec.children?,
        removeEmpty, Spec.isEmptyNode, hev, he, he', objSet, addEventListener]
    · simp [diffOne, Spec.textContent?, Spec.tag?, Spec.children?, Spec.attrs, objGet, objSet,
        diffList, diffPairs, removeEmpty, ElementDiff.isNoop,
        removedAttrStep, changedAttrStep, hev, hevx, hx]
  · intro hev hne
    have hx : ("x" == attr) = false := beq_eq_false_iff_ne.mpr (Ne.symm hne)
    constructor
    · simp [create, createTake, Spec.textContent?, Spec.tag?, Spec.attrs, Spec.children?,
        removeEmpty, Spec.isEmptyNode, hev, objSet]
    · simp [diffOne, Spec.textContent?, Spec.tag?, Spec.children?, Spec.attrs, objGet, objSet,
        diffList, diffPairs, removeEmpty, ElementDiff.isNoop,
        removedAttrStep, changedAttrStep, hev, hevx, hx]

/-- Witness for the amended claim C10 at the concrete name `"onclick"`. -/
theorem event_classification_agrees_witness :
    create 0 (Spec.element "div" [("onclick", AValue.handler 5)] [])
      = .ok (.element "div" [] [("click", JSFun.closure 0 (AValue.handler 5))] [], 1)
    ∧ diffOne (Spec.element "div" [("x", AValue.str "1")] [])
        (Spec.element "div" [("x", AValue.str "2"), ("onclick", AValue.handler 5)] [])
      = .ok (.modify (.mk [] [("x", AValue.str "2")] [("click", none)]
          [("click", AValue.handler 5)] [])) :=
  (event_classification_agrees "onclick" "click" (AValue.handler 5)).1 rfl (by decide)

end UI
